import Mathlib

set_option maxRecDepth 4000

/-
  Verification development for the alpha_db record store (src/src/Table.js,
  src/src/Database.js and the SQL parsing layer in src/unnamed/part_000).

  The JavaScript code is shallowly embedded: records are association lists of
  string keys to scalar values, tables carry the normalized schema, the data
  sequence, the per-column indexes and the primary-key column, and every store
  operation is a pure function from a table to a table plus a result.

  Modelling conventions, stated once here:
  * JS numbers are modelled as integers; no claim under study depends on
    fractional or floating-point behaviour.
  * JS object keys are strings; index buckets are therefore keyed by the string
    coercion of the indexed value, exactly as a JS object property access does.
  * JS undefined is represented by Option.none at lookup sites; the null value
    is the Value.vnull constructor.
  * Plain-object and array field values are not modelled; no claim under study
    stores such values.
-/

namespace AlphaDB

/-- Scalar runtime values of the store. vdate carries the timestamp of a JS
Date object. -/
inductive Value where
  | vnull
  | vbool (b : Bool)
  | vnum (n : Int)
  | vstr (s : String)
  | vdate (t : Int)
deriving DecidableEq, Repr

/-- A record is a JS object: an ordered association list from column names to
values. -/
abbrev Record := List (String × Value)

/-- An index bucket for one column: string key of a value to the list of row
positions holding it (JS object, hence string keys). -/
abbrev Bucket := List (String × List Nat)

/-- The indexes of a table: column name to bucket. -/
abbrev IndexMap := List (String × Bucket)

/-- Lookup in a JS-object-like association list. -/
def lookupA {α : Type} : List (String × α) → String → Option α
  | [], _ => none
  | (k, v) :: rest, key => if k = key then some v else lookupA rest key

/-- Assignment obj[key] = v on a JS-object-like association list: an existing
key keeps its position, a new key is appended (JS property insertion order). -/
def setA {α : Type} (l : List (String × α)) (key : String) (v : α) :
    List (String × α) :=
  if (lookupA l key).isSome then
    l.map (fun kv => if kv.1 = key then (key, v) else kv)
  else l ++ [(key, v)]

/-- The test `key in obj` of JS. -/
def hasKeyA {α : Type} (l : List (String × α)) (key : String) : Bool :=
  (lookupA l key).isSome

/-- The apostrophe character, used to build the quote-delimited literals and
the error messages of the source without writing it literally. -/
def qc : Char := Char.ofNat 39

/-- The apostrophe as a one-character string. -/
def qs : String := String.singleton qc

/-- Whitespace trim on a character list (models String.prototype.trim /
the trimming of ToNumber). -/
def trimChars (l : List Char) : List Char :=
  ((l.dropWhile Char.isWhitespace).reverse.dropWhile Char.isWhitespace).reverse

/-- Decimal digit run to a natural number; none when the run is empty or has a
non-digit. -/
def digitsVal : List Char → Option Nat
  | [] => none
  | l => if l.all Char.isDigit then
      some (l.foldl (fun acc c => acc * 10 + (c.toNat - 48)) 0)
    else none

/-- The JS ToNumber coercion on strings (the Number builtin on a string):
empty or all-whitespace text is 0, an optionally signed decimal integer is its
value, anything else is NaN (none). Fractional, exponent and hexadecimal forms
are not modelled; no claim under study exercises them. -/
def jsStringToNumber (s : String) : Option Int :=
  match trimChars s.data with
  | [] => some 0
  | c :: rest =>
    if c = Char.ofNat 45 then (digitsVal rest).map (fun n => -(n : Int))
    else if c = Char.ofNat 43 then (digitsVal rest).map (fun n => (n : Int))
    else (digitsVal (c :: rest)).map (fun n => (n : Int))

/-- The JS parseInt builtin on a string: longest leading signed digit run,
NaN (none) when there is none. -/
def jsParseInt (s : String) : Option Int :=
  match trimChars s.data with
  | [] => none
  | c :: rest =>
    if c = Char.ofNat 45 then (digitsVal (rest.takeWhile Char.isDigit)).map (fun n => -(n : Int))
    else if c = Char.ofNat 43 then (digitsVal (rest.takeWhile Char.isDigit)).map (fun n => (n : Int))
    else (digitsVal ((c :: rest).takeWhile Char.isDigit)).map (fun n => (n : Int))

/-- The JS String(value) coercion, with undefined included; the textual form of
a Date is abstracted as its timestamp text, the development never relies on the
exact shape of that string. -/
def jsToStringO : Option Value → String
  | none => "undefined"
  | some .vnull => "null"
  | some (.vbool b) => if b then "true" else "false"
  | some (.vnum n) => toString n
  | some (.vstr s) => s
  | some (.vdate t) => "Date(" ++ toString t ++ ")"

/-- The string a value becomes when used as a JS object property key. -/
def jsKeyString (v : Value) : String := jsToStringO (some v)

/-- JS truthiness of a value. -/
def jsTruthy : Value → Bool
  | .vnull => false
  | .vbool b => b
  | .vnum n => n != 0
  | .vstr s => s != ""
  | .vdate _ => true

/-- The JS ToNumber coercion of a possibly-undefined value; none is NaN. A
Date converts to its timestamp. -/
def toNumberO : Option Value → Option Int
  | none => none
  | some .vnull => some 0
  | some (.vbool b) => some (if b then 1 else 0)
  | some (.vnum n) => some n
  | some (.vstr s) => jsStringToNumber s
  | some (.vdate t) => some t

/-- JS strict equality (===) on values. Two Date objects are distinct
references in every comparison this development performs, so dates are never
strictly equal. -/
def jsStrictEqV : Value → Value → Bool
  | .vnull, .vnull => true
  | .vbool a, .vbool b => a == b
  | .vnum a, .vnum b => a == b
  | .vstr a, .vstr b => a == b
  | _, _ => false

/-- JS strict equality with undefined on either side. -/
def jsStrictEqO : Option Value → Option Value → Bool
  | none, none => true
  | some a, some b => jsStrictEqV a b
  | _, _ => false

/-- JS loose equality (==) on defined values: null only equals null (and
undefined), numbers and strings compare through ToNumber, booleans convert to
numbers. Dates would compare through their string form; that path is not
exercised by any claim and is modelled as not-equal. -/
def jsLooseEqV : Value → Value → Bool
  | .vnull, .vnull => true
  | .vnull, _ => false
  | _, .vnull => false
  | .vbool a, .vbool b => a == b
  | .vnum a, .vnum b => a == b
  | .vstr a, .vstr b => a == b
  | .vnum a, .vstr s => (jsStringToNumber s).any (fun m => m == a)
  | .vstr s, .vnum a => (jsStringToNumber s).any (fun m => m == a)
  | .vbool b, .vnum a => (if b then (1 : Int) else 0) == a
  | .vnum a, .vbool b => a == (if b then (1 : Int) else 0)
  | .vbool b, .vstr s => (jsStringToNumber s).any (fun m => m == (if b then (1 : Int) else 0))
  | .vstr s, .vbool b => (jsStringToNumber s).any (fun m => m == (if b then (1 : Int) else 0))
  | _, _ => false

/-- JS loose equality of a possibly-undefined left side against a value:
undefined == null holds, undefined against anything else does not. -/
def jsLooseEqO (a : Option Value) (b : Value) : Bool :=
  match a with
  | none => b == .vnull
  | some v => jsLooseEqV v b

/-- JS abstract relational comparison: both operands strings compares
lexicographically, otherwise both convert through ToNumber; none when a NaN is
involved (every relational operator is then false). -/
def relCmp (a b : Option Value) : Option Ordering :=
  match a, b with
  | some (.vstr x), some (.vstr y) => some (compare x y)
  | _, _ =>
    match toNumberO a, toNumberO b with
    | some m, some n => some (compare m n)
    | _, _ => none

/-- SQL LIKE matching after the source translates the pattern: percent becomes
a dot-star run, underscore becomes a single-character wildcard, and a literal
dot in the pattern is the regex dot, hence also a single-character wildcard;
other characters match literally. Further regex metacharacters that the source
would leave active in the pattern are not modelled; no claim under study uses
them. The regex is anchored at both ends (source line 206). -/
def likeAux : List Char → List Char → Bool
  | [], [] => true
  | [], p :: ps => if p = '%' then likeAux [] ps else false
  | _ :: _, [] => false
  | c :: vs, p :: ps =>
    if p = '%' then likeAux (c :: vs) ps || likeAux vs (p :: ps)
    else if p = '_' then likeAux vs ps
    else if p = '.' then likeAux vs ps
    else c == p && likeAux vs ps
termination_by v p => v.length + p.length

/-- LIKE on strings: value string against SQL pattern. -/
def likeMatches (s : String) (pat : String) : Bool :=
  likeAux s.data pat.data

/-- Table.compare (source lines 196-209): one operator applied to a record
field (possibly undefined) and a comparand. A LIKE whose comparand is not a
string would throw in JS on .replace; it is modelled as no-match and never
exercised. -/
def compareOp (value : Option Value) (op : String) (compareTo : Value) : Bool :=
  if op = "=" then jsLooseEqO value compareTo
  else if op = "!=" then ! jsLooseEqO value compareTo
  else if op = ">" then relCmp value (some compareTo) == some .gt
  else if op = "<" then relCmp value (some compareTo) == some .lt
  else if op = ">=" then
    relCmp value (some compareTo) == some .gt || relCmp value (some compareTo) == some .eq
  else if op = "<=" then
    relCmp value (some compareTo) == some .lt || relCmp value (some compareTo) == some .eq
  else if op = "LIKE" then
    match compareTo with
    | .vstr pat => likeMatches (jsToStringO value) pat
    | _ => false
  else false

/-- One condition value in a find call: a literal (plain equality), an
operator object, or the JS undefined value (which only internal calls can pass,
through a missing field). -/
inductive CondV where
  | lit (v : Value)
  | ops (l : List (String × Value))
  | undef
deriving DecidableEq, Repr

/-- The property key a condition value turns into when the indexed fast path
of find uses it directly as this.indexes[col][value]: an operator object
stringifies to the generic object text. -/
def condKeyString : CondV → String
  | .lit v => jsKeyString v
  | .ops _ => "[object Object]"
  | .undef => "undefined"

/-- Column metadata after normalizeSchema (source lines 22-41). Absent fields
of the raw JS schema are the corresponding Bool false or Option none. The
foreignKey field is never read by the store and is omitted. -/
structure ColumnDef where
  type : String
  required : Bool := false
  primaryKey : Bool := false
  unique : Bool := false
  autoIncrement : Bool := false
  defaultValue : Option Value := none
deriving DecidableEq, Repr

/-- normalizeSchema on one column: an absent (empty) type falls back to
string, and primaryKey forces required and unique. -/
def normalizeColumn (c : ColumnDef) : ColumnDef :=
  let c := { c with type := if c.type = "" then "string" else c.type }
  if c.primaryKey then { c with required := true, unique := true } else c

/-- normalizeSchema over the ordered column mapping. -/
def normalizeSchema (s : List (String × ColumnDef)) : List (String × ColumnDef) :=
  s.map (fun kc => (kc.1, normalizeColumn kc.2))

/-- findPrimaryKey (source lines 43-48): the first primary-key column. -/
def findPrimaryKey (s : List (String × ColumnDef)) : Option String :=
  (s.find? (fun kc => kc.2.primaryKey)).map (fun kc => kc.1)

/-- The in-memory state of one table. -/
structure Table where
  schema : List (String × ColumnDef)
  data : List Record
  indexes : IndexMap
  primaryKey : Option String
deriving DecidableEq, Repr

/-- Result of a fallible store operation (a JS return value or thrown Error
message). -/
inductive Res (α : Type) where
  | ok (val : α)
  | err (msg : String)
deriving DecidableEq, Repr

/-- validateType (source lines 50-62). Null (and undefined) always passes.
The object and array branches are false on every representable value since
plain-object and array field values are outside the model; the date branch
models Date.parse succeeding exactly on Date instances (string date formats
are not modelled, no claim under study supplies one). Unknown type names fall
through to true. -/
def validateType (value : Value) (type : String) : Bool :=
  if value = .vnull then true
  else if type = "string" then (match value with | .vstr _ => true | _ => false)
  else if type = "number" then (match value with | .vnum _ => true | _ => false)
  else if type = "boolean" then (match value with | .vbool _ => true | _ => false)
  else if type = "date" then (match value with | .vdate _ => true | _ => false)
  else if type = "object" then false
  else if type = "array" then false
  else true

/-- coerceValue (source lines 64-76). Constructing a Date from a non-date
value is not modelled (the date branch is only ever reached with a Date value
in this development) and passes the value through. -/
def coerceValue (value : Value) (type : String) : Value :=
  if value = .vnull then value
  else if type = "string" then .vstr (jsToStringO (some value))
  else if type = "number" then
    match toNumberO (some value) with
    | some n => .vnum n
    | none => .vnull
  else if type = "boolean" then .vbool (jsTruthy value)
  else if type = "date" then
    match value with
    | .vdate t => .vdate t
    | v => v
  else value

/-- One condition evaluated against one record in the full-scan branch of
find (source lines 177-192): an operator object runs every operator through
compare, a plain literal is strict equality, a null literal enters the JS
for-in loop over null, which runs zero iterations and accepts every record,
and an undefined condition value matches records lacking the field. -/
def condMatches (r : Record) (k : String) (cv : CondV) : Bool :=
  match cv with
  | .ops l => l.all (fun opv => compareOp (lookupA r k) opv.1 opv.2)
  | .lit .vnull => true
  | .lit v => jsStrictEqO (lookupA r k) (some v)
  | .undef => jsStrictEqO (lookupA r k) none

/-- Table.find (source lines 159-194). Empty conditions return all records.
A single condition on a column that has an index goes through the bucket
lookup, using the condition value itself as the property key: a literal keys
by its string coercion, an operator object keys as the generic object text.
A stale position past the end of data spreads undefined into an empty record.
Everything else is the full scan of condMatches. -/
def find (t : Table) (conds : List (String × CondV)) : List Record :=
  match conds with
  | [] => t.data
  | [(col, cv)] =>
    match lookupA t.indexes col with
    | some bucket =>
      (match lookupA bucket (condKeyString cv) with
       | some idxs => idxs.map (fun i => t.data.getD i [])
       | none => [])
    | none => t.data.filter (fun r => condMatches r col cv)
  | _ => t.data.filter (fun r => conds.all (fun kc => condMatches r kc.1 kc.2))

/-- Table.findOne (source lines 211-214). -/
def findOne (t : Table) (conds : List (String × CondV)) : Option Record :=
  (find t conds).head?

/-- Table.findAll (source lines 216-218): shallow copies of all records,
value-identical to the data sequence. -/
def findAll (t : Table) : List Record :=
  t.data

/-- The primary-key field of a record as the source reads it: when the table
has no primary key, JS evaluates record[null], which is undefined. -/
def pkGet (t : Table) (r : Record) : Option Value :=
  match t.primaryKey with
  | some pk => lookupA r pk
  | none => none

/-- The error-and-output accumulator of validateRecord (source lines 78-128),
folded over the schema columns in order. Errors accumulate; no branch stops
the remaining columns from being checked. The uniqueness check only runs when
an index exists on the column, queries the current indexes through findOne,
and compares the primary-key field of the found record against the raw (not
coerced) primary-key field of the record under validation with strict
inequality; with no primary key both sides are undefined and the check never
fires. -/
def validateAux (t : Table) (record : Record) : List String × Record :=
  t.schema.foldl
    (fun acc cd =>
      let column := cd.1
      let def_ := cd.2
      let errors := acc.1
      let result := acc.2
      let hasValue := hasKeyA record column
      if def_.autoIncrement && !hasValue then acc
      else if def_.required && !hasValue && def_.defaultValue.isNone then
        (errors ++ ["Required column " ++ qs ++ column ++ qs ++ " is missing"], result)
      else if !hasValue then
        match def_.defaultValue with
        | some d => (errors, setA result column (coerceValue d def_.type))
        | none => acc
      else
        let value := (lookupA record column).getD .vnull
        if !validateType value def_.type then
          (errors ++ ["Invalid type for " ++ qs ++ column ++ qs ++ ": expected " ++ def_.type],
           result)
        else
          let cv := coerceValue value def_.type
          let result := setA result column cv
          if def_.unique && hasKeyA t.indexes column then
            match findOne t [(column, .lit cv)] with
            | some existing =>
              if !(jsStrictEqO (pkGet t existing) (pkGet t record)) then
                (errors ++ ["Duplicate value for unique column " ++ qs ++ column ++ qs],
                 result)
              else (errors, result)
            | none => (errors, result)
          else (errors, result))
    ([], [])

/-- validateRecord: throws the comma-joined accumulated errors, otherwise
returns the validated output mapping. -/
def validateRecord (t : Table) (record : Record) : Res Record :=
  let er := validateAux t record
  if er.1 = [] then .ok er.2 else .err (String.intercalate ", " er.1)

/-- The contribution of one existing row to the auto-increment scan (source
lines 136-137): row[column] or-else 0. A zero value is falsy and replaced by
the same number 0; a missing field contributes 0. Non-numeric values would
drive Math.max to NaN in JS and are not modelled; the theorems about this
function restrict the data to numeric-or-absent values. -/
def autoVal : Option Value → Int
  | some (.vnum n) => n
  | _ => 0

/-- The reduce of insert computing the auto-increment base: the maximum of 0
and every existing contribution. -/
def autoMaxCode (data : List Record) (col : String) : Int :=
  data.foldl (fun m row => max m (autoVal (lookupA row col))) 0

/-- The auto-increment fill loop of insert (source lines 134-140), over an
explicit schema list. -/
def fillLoop (data : List Record) (s : List (String × ColumnDef)) (v : Record) : Record :=
  s.foldl
    (fun acc cd =>
      if cd.2.autoIncrement && !hasKeyA acc cd.1 then
        setA acc cd.1 (.vnum (autoMaxCode data cd.1 + 1))
      else acc)
    v

/-- Append a position to the bucket entry of a key, creating the entry when
absent (the index-update pattern of insert and update). -/
def bucketPush (b : Bucket) (key : String) (pos : Nat) : Bucket :=
  match lookupA b key with
  | some l => setA b key (l ++ [pos])
  | none => b ++ [(key, [pos])]

/-- Table.insert (source lines 130-157): validate, fill auto-increment
columns, append the record, then push the new position into every existing
index under the stored value. A validation error leaves the table untouched.
Persistence is a no-op in the model. -/
def insert (t : Table) (record : Record) : Table × Res Record :=
  match validateRecord t record with
  | .err e => (t, .err e)
  | .ok validated0 =>
    let validated := fillLoop t.data t.schema validated0
    let data1 := t.data ++ [validated]
    let pos := data1.length - 1
    let indexes1 := t.indexes.map
      (fun colb =>
        match lookupA validated colb.1 with
        | some v => (colb.1, bucketPush colb.2 (jsKeyString v) pos)
        | none => colb)
    ({ t with data := data1, indexes := indexes1 }, .ok validated)

/-- Resolution of the rows matched by find back to data positions (source
lines 224-231 and 284-290): by strict equality of the primary-key field, or by
object identity when there is no primary key — and since find returns copies,
identity never holds and no position resolves in that case. Rows a matched
copy cannot be located for are skipped; duplicate primary-key values can
resolve two matches to the same position, as in JS. -/
def resolveTargets (t : Table) (found : List Record) : List Nat :=
  found.filterMap
    (fun record =>
      match t.primaryKey with
      | some pk => t.data.findIdx? (fun r => jsStrictEqO (lookupA r pk) (lookupA record pk))
      | none => none)

/-- Removal of the target positions from every index bucket holding their old
values (source lines 233-241 of update, identical in shape to lines 294-301 of
delete). -/
def stripPhase (indexes : IndexMap) (data : List Record) (indices : List Nat) : IndexMap :=
  indexes.map
    (fun colb =>
      (colb.1,
        indices.foldl
          (fun b i =>
            match lookupA (data.getD i []) colb.1 with
            | some v =>
              let key := jsKeyString v
              (match lookupA b key with
               | some l => setA b key (l.filter (fun j => j != i))
               | none => b)
            | none => b)
          colb.2))

/-- Re-insertion of the target positions under their new values after the
update write loop (source lines 262-270). -/
def readdPhase (indexes : IndexMap) (data : List Record) (indices : List Nat) : IndexMap :=
  indexes.map
    (fun colb =>
      (colb.1,
        indices.foldl
          (fun b i =>
            match lookupA (data.getD i []) colb.1 with
            | some v => bucketPush b (jsKeyString v) i
            | none => b)
          colb.2))

/-- The JS object spread merge of update: keys of the row in their order with
patched values, then new keys of the patch appended. -/
def jsMerge (a b : Record) : Record :=
  a.map (fun kv => (kv.1, (lookupA b kv.1).getD kv.2)) ++
    b.filter (fun kv => !(hasKeyA a kv.1))

/-- The write loop of update (source lines 244-259) over the resolved
positions: merge the patch into the current row, re-validate against the
current (stripped) indexes and current data, then — when the patch touches the
primary key — reject if findOne locates any record under the new key value
(findOne returns a copy, so the identity comparison of the source against the
row being written never equates them). A thrown error stops the loop, keeping
the rows already written. Returns the final data, the update count and the
error, if any. -/
def updateLoop (t : Table) (idxs : IndexMap) (patch : Record) :
    List Nat → List Record → List Record × Nat × Option String
  | [], d => (d, 0, none)
  | i :: rest, d =>
    let cur : Table := { t with data := d, indexes := idxs }
    let newRecord := jsMerge (d.getD i []) patch
    match validateRecord cur newRecord with
    | .err e => (d, 0, some e)
    | .ok validated =>
      let dup :=
        match t.primaryKey with
        | some pk =>
          hasKeyA patch pk &&
            (findOne cur [(pk, match lookupA validated pk with
                               | some v => .lit v
                               | none => .undef)]).isSome
        | none => false
      if dup then (d, 0, some "Duplicate primary key value")
      else
        let res := updateLoop t idxs patch rest (d.set i validated)
        (res.1, res.2.1 + 1, res.2.2)

/-- Table.update (source lines 220-278): resolve targets, strip their old
index entries, run the write loop, and on success re-add the new index
entries. On a thrown error the table keeps the partially written data and the
stripped indexes, exactly as the mutated JS object does. -/
def update (t : Table) (conds : List (String × CondV)) (patch : Record) :
    Table × Res Nat :=
  let toUpdate := find t conds
  let indices := resolveTargets t toUpdate
  let stripped := stripPhase t.indexes t.data indices
  let res := updateLoop t stripped patch indices t.data
  match res.2.2 with
  | some e => ({ t with data := res.1, indexes := stripped }, .err e)
  | none => ({ t with data := res.1, indexes := readdPhase stripped res.1 indices }, .ok res.2.1)

/-- rebuildIndex for one column (source lines 331-340): fresh bucket from the
current data sequence. -/
def rebuildBucket (data : List Record) (col : String) : Bucket :=
  (List.range data.length).foldl
    (fun b i =>
      match lookupA (data.getD i []) col with
      | some v => bucketPush b (jsKeyString v) i
      | none => b)
    []

/-- Descending numeric sort of the target positions (source line 292). -/
def sortDescNat (l : List Nat) : List Nat :=
  let rec ins (x : Nat) : List Nat → List Nat
    | [] => [x]
    | y :: ys => if y ≤ x then x :: y :: ys else y :: ins x ys
  l.foldr ins []

/-- Table.delete (source lines 280-318): resolve targets, sort their
positions descending, then for every column strip the target positions and
immediately rebuild the index — from the data sequence that has not been
spliced yet, so the stripped bucket is discarded and the rebuilt index still
describes the pre-deletion positions — and only then splice the rows out. -/
def deleteOp (t : Table) (conds : List (String × CondV)) : Table × Nat :=
  let toDelete := find t conds
  let indices := sortDescNat (resolveTargets t toDelete)
  let indexes1 := (stripPhase t.indexes t.data indices).map
    (fun colb => (colb.1, rebuildBucket t.data colb.1))
  let data1 := indices.foldl (fun d i => d.take i ++ d.drop (i + 1)) t.data
  ({ t with data := data1, indexes := indexes1 }, indices.length)

/-- Table.createIndex (source lines 320-329): fails on a column outside the
schema, otherwise installs a fresh full rebuild. -/
def createIndex (t : Table) (column : String) : Res Table :=
  if (lookupA t.schema column).isNone then
    .err ("Column " ++ qs ++ column ++ qs ++ " does not exist")
  else
    .ok { t with indexes := setA t.indexes column (rebuildBucket t.data column) }

/-- The Table constructor (source lines 4-20) applied to a raw schema, the
persisted data and the persisted indexes (none when no index file exists):
normalize the schema, adopt the persisted state, and create the primary-key
index when it is missing. -/
def newTable (schemaRaw : List (String × ColumnDef)) (savedData : List Record)
    (savedIndexes : Option IndexMap) : Table :=
  let schema := normalizeSchema schemaRaw
  let pk := findPrimaryKey schema
  let t : Table :=
    { schema := schema, data := savedData, indexes := savedIndexes.getD [],
      primaryKey := pk }
  match pk with
  | some p =>
    if (lookupA t.indexes p).isNone then
      { t with indexes := setA t.indexes p (rebuildBucket t.data p) }
    else t
  | none => t

/-- Whether a token starts with an apostrophe (the quote test of the literal
coercion chains). -/
def startsWithQuote (s : String) : Bool :=
  match s.data with
  | [] => false
  | c :: _ => c = qc

/-- Whether a token ends with an apostrophe. -/
def endsWithQuote (s : String) : Bool :=
  match s.data.getLast? with
  | some c => c = qc
  | none => false

/-- The slice(1, -1) of the source on a token: drop the first and last
characters. -/
def stripQuotes (s : String) : String :=
  String.mk ((s.data.drop 1).dropLast)

/-- Literal coercion in parseInsert (src/unnamed/part_000 lines 228-239):
quoted text is stripped, a token whose Number coercion is not NaN becomes that
number, the exact tokens TRUE and true become the boolean true, FALSE and
false become false, NULL becomes null, anything else stays raw text. -/
def parseInsertLiteral (tok : String) : Value :=
  if startsWithQuote tok && endsWithQuote tok then .vstr (stripQuotes tok)
  else
    match jsStringToNumber tok with
    | some n => .vnum n
    | none =>
      if tok = "TRUE" || tok = "true" then .vbool true
      else if tok = "FALSE" || tok = "false" then .vbool false
      else if tok = "NULL" then .vnull
      else .vstr tok

/-- Literal coercion in parseCondition (src/unnamed/part_000 lines 347-358),
textually the same chain as in parseInsert. -/
def parseConditionLiteral (tok : String) : Value :=
  if startsWithQuote tok && endsWithQuote tok then .vstr (stripQuotes tok)
  else
    match jsStringToNumber tok with
    | some n => .vnum n
    | none =>
      if tok = "TRUE" || tok = "true" then .vbool true
      else if tok = "FALSE" || tok = "false" then .vbool false
      else if tok = "NULL" then .vnull
      else .vstr tok

/-- Literal coercion in parseUpdate (src/unnamed/part_000 lines 380-391),
textually the same chain as in parseInsert. -/
def parseUpdateLiteral (tok : String) : Value :=
  if startsWithQuote tok && endsWithQuote tok then .vstr (stripQuotes tok)
  else
    match jsStringToNumber tok with
    | some n => .vnum n
    | none =>
      if tok = "TRUE" || tok = "true" then .vbool true
      else if tok = "FALSE" || tok = "false" then .vbool false
      else if tok = "NULL" then .vnull
      else .vstr tok

/-- The projection step of parseSelect (src/unnamed/part_000 lines 307-315):
keep only the listed columns that the row actually has. -/
def projectRow (cols : List String) (row : Record) : Record :=
  cols.foldl
    (fun sel c =>
      match lookupA row c with
      | some v => setA sel c v
      | none => sel)
    []

/-- The ORDER BY comparator of parseSelect (src/unnamed/part_000 lines
318-327): the JS relational operators on the two fields, ascending or
descending; an undefined field makes both comparisons false, hence compares
equal. Returns the comparator value as an integer. -/
def selComparator (orderBy : String) (orderDir : String) (a b : Record) : Int :=
  let aVal := lookupA a orderBy
  let bVal := lookupA b orderBy
  if orderDir = "ASC" then
    if relCmp aVal bVal == some .gt then 1
    else if relCmp aVal bVal == some .lt then -1
    else 0
  else
    if relCmp aVal bVal == some .lt then 1
    else if relCmp aVal bVal == some .gt then -1
    else 0

/-- Stable insertion of one element by a three-way integer comparator. -/
def insSortedBy {α : Type} (cmp : α → α → Int) (x : α) : List α → List α
  | [] => [x]
  | y :: ys => if cmp x y ≤ 0 then x :: y :: ys else y :: insSortedBy cmp x ys

/-- Stable comparator sort, the behaviour of Array.prototype.sort for a
consistent comparator. -/
def stableSortBy {α : Type} (cmp : α → α → Int) : List α → List α
  | [] => []
  | x :: xs => insSortedBy cmp x (stableSortBy cmp xs)

/-- The slice(0, n) of the limit step: a nonnegative bound takes a prefix, a
negative bound drops that many elements from the end. -/
def jsSlice0 {α : Type} (n : Int) (l : List α) : List α :=
  if n < 0 then l.take (l.length - min l.length (-n).toNat)
  else l.take n.toNat

/-- The execution pipeline of parseSelect (src/unnamed/part_000 lines
304-339) on an already-parsed clause set: find, then column projection unless
the list contains star or is empty, then ordering, then the limit step — which
the source guards with the JS truthiness of the limit, so an absent limit, a
NaN limit (none here) and a zero limit all skip truncation. -/
def parseSelectExec (t : Table) (cols : List String) (conds : List (String × CondV))
    (orderBy : Option String) (orderDir : String) (limit : Option Int) : List Record :=
  let results := find t conds
  let results :=
    if !(cols.contains "*") && cols ≠ [] then results.map (projectRow cols) else results
  let results :=
    match orderBy with
    | some ob => stableSortBy (selComparator ob orderDir) results
    | none => results
  match limit with
  | some n => if n ≠ 0 then jsSlice0 n results else results
  | none => results

/-- JSON round trip of one stored value (save then load, source lines
351-369): JSON.stringify serializes a Date as its ISO text and JSON.parse
reads it back as a plain string, so a date value reloads as a string; the
exact ISO shape is abstracted as the timestamp text, the development only
relies on the result being a string. Every other representable value survives
unchanged. -/
def jsonRoundValue : Value → Value
  | .vdate t => .vstr (toString t)
  | v => v

/-- Reloading a table from storage (Database.loadTables creating a fresh
Table from the persisted schema, data and index files): the data file holds
the JSON round trip of every record, the index file round-trips unchanged, and
the constructor runs again. -/
def reloadTable (t : Table) : Table :=
  newTable t.schema
    (t.data.map (fun r => r.map (fun kv => (kv.1, jsonRoundValue kv.2))))
    (some t.indexes)

/-- Values of one column over the data sequence, in the words of the spec:
the values the records actually hold for it (numeric ones; the claims speak of
numeric auto-increment columns). -/
def colVals (data : List Record) (col : String) : List Int :=
  data.filterMap
    (fun r =>
      match lookupA r col with
      | some (Value.vnum n) => some n
      | _ => none)

/-- Modelled from the spec words of claim C3: the maximum of the values of the
column over the records present, taking 0 when there are none. This is the
claimed auto-increment base, to be compared with what insert computes. -/
def specAutoMax (data : List Record) (col : String) : Int :=
  match colVals data col with
  | [] => 0
  | v :: vs => vs.foldl max v

/-- Whether a record field is absent or holds a number — the domain on which
the auto-increment scan of the source is faithfully modelled. -/
def numericOrAbsent : Option Value → Bool
  | none => true
  | some (.vnum _) => true
  | _ => false

/-- A number-typed primary-key column. -/
def pkNumCol : ColumnDef :=
  { type := "number", primaryKey := true }

/-- A fresh table whose only column is the numeric primary key id; the
constructor creates the id index. -/
def tabIdEmpty : Table :=
  newTable [("id", pkNumCol)] [] none

/-- The id table after inserting the rows id 1 and id 2. -/
def tabId12 : Table :=
  (insert (insert tabIdEmpty [("id", .vnum 1)]).1 [("id", .vnum 2)]).1

/-- A fresh users table in the shape the demo script uses at its duplicate
test: numeric primary key id and a unique string username that has no index. -/
def tabUsersEmpty : Table :=
  newTable [("id", pkNumCol), ("username", { type := "string", unique := true })] [] none

/-- A table with one plain numeric age column (no primary key, no indexes)
holding the single row age 25. -/
def tabAge25 : Table :=
  (insert (newTable [("age", { type := "number" })] [] none) [("age", .vnum 25)]).1

/-- The age table with an index created on age. -/
def tabAge25Idx : Table :=
  match createIndex tabAge25 "age" with
  | .ok t => t
  | .err _ => tabAge25

/-- The users table after inserting id 1, username alice. -/
def tabUsersAlice : Table :=
  (insert tabUsersEmpty [("id", .vnum 1), ("username", .vstr "alice")]).1

/-- A table with a single auto-increment numeric column (no primary key)
holding one explicitly supplied row with the negative value -5. -/
def tabAutoNeg : Table :=
  (insert (newTable [("id", { type := "number", autoIncrement := true })] [] none)
    [("id", .vnum (-5))]).1

/-- A table with one date column holding one row with a date value. -/
def tabDate5 : Table :=
  (insert (newTable [("d", { type := "date" })] [] none) [("d", .vdate 5)]).1

/-- A table with one column whose declared type name int is not a known
type. -/
def tabIntCol : Table :=
  newTable [("x", { type := "int" })] [] none

/-- A table with required string column a and plain number column b, used to
exhibit error accumulation. -/
def tabReqAB : Table :=
  newTable [("a", { type := "string", required := true }), ("b", { type := "number" })] [] none

/-- Whether a value is a date. -/
def isDateValue : Value → Bool
  | .vdate _ => true
  | _ => false

/-- The auto-increment primary-key column of the concrete reissue scenario,
after normalization. -/
def autoPKCol : ColumnDef :=
  { type := "number", required := true, primaryKey := true, unique := true,
    autoIncrement := true }

/-- The spec section 8 reissue scenario: a table with an auto-increment
numeric primary key, two inserts without a supplied id (stored as id 1 and
id 2), then a delete of id 1, leaving the single row id 2. -/
def tabAuto12Del : Table :=
  (deleteOp
    ((insert
      ((insert
        (newTable [("id", { type := "number", primaryKey := true, autoIncrement := true })]
          [] none) []).1) []).1)
    [("id", .lit (.vnum 1))]).1

end AlphaDB

namespace AlphaDB

/-- Lookup distributes over append: the left list wins when it has the key. -/
theorem lookupA_append {α : Type} (l m : List (String × α)) (k : String) :
    lookupA (l ++ m) k =
      match lookupA l k with
      | some v => some v
      | none => lookupA m k := by
  induction l with
  | nil => rfl
  | cons hd tl ih =>
    obtain ⟨a, b⟩ := hd
    by_cases h : a = k
    · simp [lookupA, h]
    · simp [lookupA, h, ih]

/-- The in-place write of setA stores the value under its key, provided the
key was present. -/
theorem lookupA_map_set_self {α : Type} (l : List (String × α)) (k : String) (v : α)
    (hsome : (lookupA l k).isSome = true) :
    lookupA (l.map (fun kv => if kv.1 = k then (k, v) else kv)) k = some v := by
  induction l with
  | nil => simp [lookupA] at hsome
  | cons hd tl ih =>
    obtain ⟨a, b⟩ := hd
    simp only [List.map_cons]
    dsimp only
    by_cases ha : a = k
    · subst ha
      rw [if_pos rfl]
      simp [lookupA]
    · have h' : (lookupA tl k).isSome = true := by
        simpa [lookupA, ha] using hsome
      rw [if_neg ha]
      simp only [lookupA, if_neg ha]
      exact ih h'

/-- The in-place write of setA under one key leaves lookups of another key
unchanged. -/
theorem lookupA_map_set_ne {α : Type} (l : List (String × α)) (k' k : String) (v : α)
    (h : k' ≠ k) :
    lookupA (l.map (fun kv => if kv.1 = k' then (k', v) else kv)) k = lookupA l k := by
  induction l with
  | nil => rfl
  | cons hd tl ih =>
    obtain ⟨a, b⟩ := hd
    simp only [List.map_cons]
    dsimp only
    by_cases ha : a = k'
    · subst ha
      rw [if_pos rfl]
      simp only [lookupA, if_neg h]
      exact ih
    · rw [if_neg ha]
      by_cases hak : a = k
      · simp [lookupA, hak]
      · simp only [lookupA, if_neg hak]
        exact ih

/-- Assignment stores the value under its key. -/
theorem lookupA_setA_self {α : Type} (l : List (String × α)) (k : String) (v : α) :
    lookupA (setA l k v) k = some v := by
  unfold setA
  split
  case isTrue h => exact lookupA_map_set_self l k v h
  case isFalse h =>
    rw [lookupA_append]
    cases hl : lookupA l k with
    | some w => exact absurd (by simp [hl]) h
    | none => simp [lookupA]

/-- Assignment under a different key leaves a lookup unchanged. -/
theorem lookupA_setA_ne {α : Type} (l : List (String × α)) (k k' : String) (v : α)
    (h : k' ≠ k) : lookupA (setA l k' v) k = lookupA l k := by
  unfold setA
  split
  · exact lookupA_map_set_ne l k' k v h
  · rw [lookupA_append]
    cases hl : lookupA l k with
    | some w => rfl
    | none => simp [lookupA, h]

/-- The data sequence of a freshly constructed table is the saved data,
whichever way the primary-key index branch goes. -/
theorem newTable_data (s : List (String × ColumnDef)) (d : List Record)
    (i : Option IndexMap) : (newTable s d i).data = d := by
  unfold newTable
  dsimp only
  split
  · split <;> rfl
  · rfl

/-- Pulling the left operand of max out of a max-accumulating fold over
integers. -/
theorem foldl_max_pull (X : List Int) (a b : Int) :
    X.foldl max (max a b) = max a (X.foldl max b) := by
  induction X generalizing b with
  | nil => rfl
  | cons c tl ih =>
    simp only [List.foldl_cons]
    rw [max_assoc]
    exact ih (max b c)

/-- Pulling the left operand of max out of the auto-increment scan. -/
theorem foldl_autoMax_pull (col : String) (X : List Record) (a b : Int) :
    X.foldl (fun m row => max m (autoVal (lookupA row col))) (max a b) =
      max a (X.foldl (fun m row => max m (autoVal (lookupA row col))) b) := by
  induction X generalizing b with
  | nil => rfl
  | cons r tl ih =>
    simp only [List.foldl_cons]
    rw [max_assoc]
    exact ih (max b (autoVal (lookupA r col)))

/-- The auto-increment scan never goes below its start value. -/
theorem foldl_autoMax_ge (col : String) (X : List Record) (a : Int) :
    a ≤ X.foldl (fun m row => max m (autoVal (lookupA row col))) a := by
  induction X generalizing a with
  | nil => exact le_refl a
  | cons r tl ih =>
    simp only [List.foldl_cons]
    exact le_trans (le_max_left a (autoVal (lookupA r col))) (ih _)

/-- The auto-increment base is never negative. -/
theorem autoMaxCode_nonneg (data : List Record) (col : String) :
    0 ≤ autoMaxCode data col :=
  foldl_autoMax_ge col data 0

/-- The auto-increment base over a cons. -/
theorem autoMaxCode_cons (r : Record) (rest : List Record) (col : String) :
    autoMaxCode (r :: rest) col =
      max (autoVal (lookupA r col)) (autoMaxCode rest col) := by
  unfold autoMaxCode
  simp only [List.foldl_cons]
  rw [max_comm 0 (autoVal (lookupA r col)), foldl_autoMax_pull]

/-- The code auto-increment base equals the spec maximum clamped below at
zero, on data whose values for the column are numeric or absent. -/
theorem autoMaxCode_spec (col : String) (data : List Record)
    (h : ∀ r ∈ data, numericOrAbsent (lookupA r col) = true) :
    autoMaxCode data col = max 0 (specAutoMax data col) := by
  induction data with
  | nil => simp [autoMaxCode, specAutoMax, colVals]
  | cons r rest ih =>
    have hr := h r (List.mem_cons_self r rest)
    have ihr := ih (fun x hx => h x (List.mem_cons_of_mem r hx))
    rw [autoMaxCode_cons]
    cases hv : lookupA r col with
    | none =>
      have hcv : colVals (r :: rest) col = colVals rest col := by
        simp [colVals, hv]
      simp only [autoVal, hv]
      rw [max_comm, max_eq_left (by
        exact le_trans (autoMaxCode_nonneg rest col) (le_of_eq rfl))]
      rw [ihr]
      unfold specAutoMax
      rw [hcv]
    | some v =>
      cases v with
      | vnum n =>
        have hcv : colVals (r :: rest) col = n :: colVals rest col := by
          simp [colVals, hv]
        simp only [autoVal, hv]
        rw [ihr]
        unfold specAutoMax
        rw [hcv]
        cases hrest : colVals rest col with
        | nil =>
          simp only [List.foldl_nil]
          rw [max_comm (0 : Int) n]
          rw [max_comm (0 : Int) 0]
          simp [max_comm]
        | cons m ms =>
          simp only [List.foldl_cons]
          rw [foldl_max_pull ms n m]
          rw [max_left_comm]
      | vnull => simp [numericOrAbsent, hv] at hr
      | vbool b => simp [numericOrAbsent, hv] at hr
      | vstr s => simp [numericOrAbsent, hv] at hr
      | vdate t => simp [numericOrAbsent, hv] at hr

/-- One step of the auto-increment fill loop. -/
theorem fillLoop_cons (data : List Record) (cd : String × ColumnDef)
    (tl : List (String × ColumnDef)) (v : Record) :
    fillLoop data (cd :: tl) v =
      fillLoop data tl
        (if cd.2.autoIncrement && !hasKeyA v cd.1 then
          setA v cd.1 (.vnum (autoMaxCode data cd.1 + 1))
        else v) := rfl

/-- The fill loop over columns not containing a given name leaves that field
alone. -/
theorem fillLoop_skip (data : List Record) (s : List (String × ColumnDef))
    (v : Record) (col : String) (h : col ∉ s.map Prod.fst) :
    lookupA (fillLoop data s v) col = lookupA v col := by
  induction s generalizing v with
  | nil => rfl
  | cons cd tl ih =>
    obtain ⟨c, cdef⟩ := cd
    have hc : c ≠ col := by
      intro hcc
      apply h
      rw [hcc]
      simp
    have htl : col ∉ tl.map Prod.fst := by
      intro hcc
      apply h
      simp [hcc]
    rw [fillLoop_cons]
    rw [ih _ htl]
    dsimp only
    by_cases hstep : cdef.autoIncrement && !hasKeyA v c
    · rw [if_pos hstep]
      exact lookupA_setA_ne v col c _ hc
    · rw [if_neg hstep]

/-- The fill loop assigns exactly the successor of the code base to an
auto-increment column the validated record lacks, for a schema without
duplicate column names. -/
theorem fillLoop_hits (data : List Record) (s : List (String × ColumnDef))
    (col : String) (d : ColumnDef) (hai : d.autoIncrement = true) :
    ∀ (v : Record), (s.map Prod.fst).Nodup → (col, d) ∈ s → hasKeyA v col = false →
      lookupA (fillLoop data s v) col = some (.vnum (autoMaxCode data col + 1)) := by
  induction s with
  | nil => intro v _ hmem _; cases hmem
  | cons cd tl ih =>
    intro v hnd hmem hno
    obtain ⟨c, cdef⟩ := cd
    rw [fillLoop_cons]
    dsimp only
    have hnd' : (tl.map Prod.fst).Nodup := (List.nodup_cons.mp (by simpa using hnd)).2
    rcases List.mem_cons.mp hmem with heq | hmem'
    · injection heq with h1 h2
      subst h1
      subst h2
      rw [if_pos (by rw [hai, hno]; rfl)]
      have hnotl : col ∉ tl.map Prod.fst :=
        (List.nodup_cons.mp (by simpa using hnd)).1
      rw [fillLoop_skip data tl _ col hnotl]
      exact lookupA_setA_self v col _
    · have hcol_tl : col ∈ tl.map Prod.fst := by
        exact List.mem_map_of_mem Prod.fst hmem'
      have hcne : c ≠ col := by
        intro hcc
        subst hcc
        exact (List.nodup_cons.mp (by simpa using hnd)).1 hcol_tl
      by_cases hstep : cdef.autoIncrement && !hasKeyA v c
      · rw [if_pos hstep]
        apply ih _ hnd' hmem'
        unfold hasKeyA
        rw [lookupA_setA_ne v col c _ hcne]
        exact hno
      · rw [if_neg hstep]
        exact ih v hnd' hmem' hno

end AlphaDB

namespace AlphaDB

/-- Claim C1 (code bug): index/data consistency fails after a delete. On the
table with rows id 1 and id 2 and the primary-key index, deleting id 1 leaves
the data with the single row id 2 at position 0, yet the index still maps key
1 to position 0 and key 2 to position 1 — because delete rebuilds every index
from the data sequence before splicing the rows out. A subsequent indexed
lookup of id 2 follows the stale position past the end of the data and returns
a single empty record instead of the remaining row. -/
theorem delete_stale_index_eval :
    (deleteOp tabId12 [("id", .lit (.vnum 1))]).1.data = [[("id", .vnum 2)]] ∧
    (deleteOp tabId12 [("id", .lit (.vnum 1))]).1.indexes =
      [("id", [("1", [0]), ("2", [1])])] ∧
    find (deleteOp tabId12 [("id", .lit (.vnum 1))]).1 [("id", .lit (.vnum 2))] = [[]] := by
  refine ⟨by decide, by decide, by decide⟩

/-- Claim C2 (code bug): uniqueness is not enforced on a unique column that
has no index. In the shape the demo script tests (numeric primary key id,
unique unindexed string username), inserting a second record with the same
username alice succeeds and both records are present afterwards, although the
demo expects the duplicate to be rejected. -/
theorem duplicate_unique_unindexed_eval :
    (insert tabUsersAlice [("id", .vnum 2), ("username", .vstr "alice")]).2 =
      .ok [("id", .vnum 2), ("username", .vstr "alice")] ∧
    (insert tabUsersAlice [("id", .vnum 2), ("username", .vstr "alice")]).1.data =
      [[("id", .vnum 1), ("username", .vstr "alice")],
       [("id", .vnum 2), ("username", .vstr "alice")]] := by
  refine ⟨by decide, by decide⟩

/-- Claim C4 (code bug): find with a single-column operator condition does not
give the same result with and without an index. The tables tabAge25 and
tabAge25Idx hold the same single record age 25 and differ only in the index on
age; the record satisfies the operator greater-than 20, the unindexed full
scan returns it, but the indexed table routes the operator object through the
bucket lookup under the key of the stringified object and returns nothing. -/
theorem find_indexed_operator_eval :
    tabAge25Idx.data = tabAge25.data ∧
    compareOp (some (.vnum 25)) ">" (.vnum 20) = true ∧
    find tabAge25 [("age", .ops [(">", .vnum 20)])] = [[("age", .vnum 25)]] ∧
    find tabAge25Idx [("age", .ops [(">", .vnum 20)])] = [] := by
  refine ⟨by decide, by decide, by decide, by decide⟩

/-- Claim C3 counterexample: the claimed formula 1 + (maximum of the existing
column values, 0 when the table is empty) fails when an existing value is
negative. On the table holding the single row id -5, the claimed next value is
-4, but insert stores id 1, because the source folds Math.max starting from 0
and the maximum is clamped below at zero. -/
theorem autoIncrement_claim_counterexample :
    (insert tabAutoNeg []).2 = .ok [("id", .vnum 1)] ∧
    specAutoMax tabAutoNeg.data "id" + 1 = -4 ∧
    (.ok [("id", .vnum 1)] : Res Record) ≠ .ok [("id", .vnum (-4))] := by
  refine ⟨by decide, by decide, by decide⟩

/-- Claim C6 counterexample: an update whose patch sets the primary key to a
value that collides with the key of a different existing row is not rejected
when that row is itself among the rows targeted by the update. Updating both
rows of the id 1, id 2 table with the patch id 2 collides with the key of row
id 2, yet the call succeeds with count 2 and writes both rows, leaving two
records with the same primary key. -/
theorem update_pk_collision_counterexample :
    (update tabId12 [] [("id", .vnum 2)]).2 = .ok 2 ∧
    (update tabId12 [] [("id", .vnum 2)]).1.data =
      [[("id", .vnum 2)], [("id", .vnum 2)]] := by
  refine ⟨by decide, by decide⟩

/-- Claim C7 counterexample: round-trip persistence is not the identity when
a stored value is a date. The table holding one record with a date value reads
back, after the JSON save and reload, a record holding the string
serialization of the date instead of the date value. -/
theorem roundtrip_date_counterexample :
    findAll tabDate5 = [[("d", .vdate 5)]] ∧
    findAll (reloadTable tabDate5) = [[("d", .vstr "5")]] ∧
    findAll (reloadTable tabDate5) ≠ findAll tabDate5 := by
  refine ⟨by decide, by decide, by decide⟩

/-- Claim C8 counterexample: literal coercion is not case-insensitive for the
boolean keywords. The mixed-case token True is left as raw text by the INSERT
literal chain, not coerced to the boolean true. -/
theorem literal_mixed_case_counterexample :
    parseInsertLiteral "True" = .vstr "True" ∧
    (Value.vstr "True") ≠ .vbool true := by
  refine ⟨by decide, by decide⟩

/-- Claim C9 counterexample: a column whose declared type int is not one of
the six known types accepts any supplied value silently. Inserting a record
with a string value for that column succeeds and stores the record; no
SchemaViolation error surfaces. -/
theorem unknown_type_accepted_counterexample :
    (insert tabIntCol [("x", .vstr "hello")]).2 = .ok [("x", .vstr "hello")] ∧
    (insert tabIntCol [("x", .vstr "hello")]).1.data = [[("x", .vstr "hello")]] := by
  refine ⟨by decide, by decide⟩

/-- Claim C5 (confirmed): whenever validation records at least one error,
insert throws the single comma-joined message carrying every accumulated
error — validateAux folds over all schema columns without short-circuiting —
and returns the table unchanged, data and indexes included. -/
theorem insert_error_aggregation (t : Table) (r : Record)
    (h : (validateAux t r).1 ≠ []) :
    insert t r = (t, .err (String.intercalate ", " (validateAux t r).1)) := by
  have hv : validateRecord t r = .err (String.intercalate ", " (validateAux t r).1) := by
    unfold validateRecord
    rw [if_neg h]
  unfold insert
  rw [hv]

/-- Witness for claim C5 at a concrete input: a record missing the required
column a and carrying a wrongly typed b accumulates both errors, and insert
fails with the joined message and the untouched table. -/
theorem insert_error_aggregation_witness :
    (validateAux tabReqAB [("b", .vstr "x")]).1 ≠ [] ∧
    insert tabReqAB [("b", .vstr "x")] =
      (tabReqAB, .err (String.intercalate ", " (validateAux tabReqAB [("b", .vstr "x")]).1)) ∧
    (validateAux tabReqAB [("b", .vstr "x")]).1.length = 2 :=
  ⟨by decide, insert_error_aggregation tabReqAB [("b", .vstr "x")] (by decide), by decide⟩

/-- Claim C9 amended: a column type outside the six known names performs no
type check at all — validateType returns true for every value. -/
theorem unknown_type_always_valid (ty : String) (v : Value)
    (h1 : ty ≠ "string") (h2 : ty ≠ "number") (h3 : ty ≠ "boolean")
    (h4 : ty ≠ "date") (h5 : ty ≠ "object") (h6 : ty ≠ "array") :
    validateType v ty = true := by
  unfold validateType
  by_cases hv : v = .vnull
  · rw [if_pos hv]
  · rw [if_neg hv, if_neg h1, if_neg h2, if_neg h3, if_neg h4, if_neg h5, if_neg h6]

/-- Witness for the amended claim C9 at the concrete type int and a string
value. -/
theorem unknown_type_always_valid_witness :
    validateType (.vstr "hello") "int" = true :=
  unknown_type_always_valid "int" (.vstr "hello") (by decide) (by decide) (by decide)
    (by decide) (by decide) (by decide)

/-- Claim C7 amended: round-trip persistence is the identity on the readable
record set whenever no stored value is a date; the JSON snapshot preserves
every scalar value and the record order. -/
theorem roundtrip_no_date (t : Table)
    (h : ∀ r ∈ t.data, ∀ kv ∈ r, isDateValue kv.2 = false) :
    findAll (reloadTable t) = findAll t := by
  unfold findAll reloadTable
  rw [newTable_data]
  have hmap : ∀ r ∈ t.data, r.map (fun kv => (kv.1, jsonRoundValue kv.2)) = r := by
    intro r hr
    have : r.map (fun kv => (kv.1, jsonRoundValue kv.2)) = r.map id := by
      apply List.map_congr_left
      intro kv hkv
      have hnd := h r hr kv hkv
      obtain ⟨k, v⟩ := kv
      cases v with
      | vdate ts => simp [isDateValue] at hnd
      | vnull => rfl
      | vbool b => rfl
      | vnum n => rfl
      | vstr s => rfl
    rw [this, List.map_id]
  calc t.data.map (fun r => r.map (fun kv => (kv.1, jsonRoundValue kv.2)))
      = t.data.map id := List.map_congr_left hmap
    _ = t.data := List.map_id t.data

/-- Witness for the amended claim C7 at a concrete date-free table. -/
theorem roundtrip_no_date_witness :
    findAll (reloadTable tabId12) = findAll tabId12 :=
  roundtrip_no_date tabId12 (by decide)

/-- Claim C10 (confirmed): the select pipeline treats a parsed LIMIT 0 (and
the token 0 parses to the number 0) exactly as no limit — the full matching,
projected, ordered record list is returned — while every positive limit n
truncates to the first n records. -/
theorem select_limit_zero_no_limit :
    jsParseInt "0" = some 0 ∧
    ∀ (t : Table) (cols : List String) (conds : List (String × CondV))
      (ob : Option String) (dir : String),
      (parseSelectExec t cols conds ob dir (some 0) =
        parseSelectExec t cols conds ob dir none) ∧
      ∀ n : Int, 0 < n →
        parseSelectExec t cols conds ob dir (some n) =
          (parseSelectExec t cols conds ob dir none).take n.toNat := by
  refine ⟨by decide, ?_⟩
  intro t cols conds ob dir
  constructor
  · unfold parseSelectExec
    simp
  · intro n hn
    have hne : n ≠ 0 := ne_of_gt hn
    have hnlt : ¬ n < 0 := not_lt.mpr (le_of_lt hn)
    unfold parseSelectExec jsSlice0
    simp [hne, hnlt]

/-- Witness for claim C10 at a concrete table: a zero limit returns both
rows, a limit of one truncates to the first. -/
theorem select_limit_zero_no_limit_witness :
    (parseSelectExec tabId12 ["*"] [] none "ASC" (some 0) =
      parseSelectExec tabId12 ["*"] [] none "ASC" none) ∧
    parseSelectExec tabId12 ["*"] [] none "ASC" (some 1) =
      (parseSelectExec tabId12 ["*"] [] none "ASC" none).take 1 := by
  refine ⟨(select_limit_zero_no_limit.2 tabId12 ["*"] [] none "ASC").1, ?_⟩
  have h := (select_limit_zero_no_limit.2 tabId12 ["*"] [] none "ASC").2 1 (by decide)
  simpa using h

/-- Claim C8 amended: the three literal-coercion sites (INSERT values, WHERE
comparands, UPDATE SET values) coerce identically; a quoted token becomes the
enclosed string with the quotes stripped, a token whose Number coercion is not
NaN becomes that number, the exact spellings TRUE, true, FALSE, false become
booleans and NULL becomes null — the boolean and null keywords are matched
case-sensitively in those spellings only, not case-insensitively — and every
other token stays raw text. -/
theorem literal_coercion_sites :
    (∀ tok : String, parseConditionLiteral tok = parseInsertLiteral tok ∧
       parseUpdateLiteral tok = parseInsertLiteral tok) ∧
    (∀ tok : String, (startsWithQuote tok && endsWithQuote tok) = true →
       parseInsertLiteral tok = .vstr (stripQuotes tok)) ∧
    (∀ (tok : String) (n : Int), (startsWithQuote tok && endsWithQuote tok) = false →
       jsStringToNumber tok = some n → parseInsertLiteral tok = .vnum n) ∧
    (parseInsertLiteral "TRUE" = .vbool true ∧ parseInsertLiteral "true" = .vbool true ∧
      parseInsertLiteral "FALSE" = .vbool false ∧ parseInsertLiteral "false" = .vbool false ∧
      parseInsertLiteral "NULL" = .vnull) ∧
    (∀ tok : String, (startsWithQuote tok && endsWithQuote tok) = false →
       jsStringToNumber tok = none →
       tok ≠ "TRUE" → tok ≠ "true" → tok ≠ "FALSE" → tok ≠ "false" → tok ≠ "NULL" →
       parseInsertLiteral tok = .vstr tok) := by
  refine ⟨fun tok => ⟨rfl, rfl⟩, ?_, ?_,
    ⟨by decide, by decide, by decide, by decide, by decide⟩, ?_⟩
  · intro tok h
    simp [parseInsertLiteral, h]
  · intro tok n h1 h2
    simp [parseInsertLiteral, h1, h2]
  · intro tok h1 h2 h3 h4 h5 h6 h7
    simp [parseInsertLiteral, h1, h2, h3, h4, h5, h6, h7]

/-- Witness for the amended claim C8 at concrete tokens: the agreement of the
sites, a quoted token, a numeric token and a raw token. -/
theorem literal_coercion_sites_witness :
    (parseConditionLiteral "21" = parseInsertLiteral "21") ∧
    parseInsertLiteral (qs ++ "Ann" ++ qs) = .vstr "Ann" ∧
    parseInsertLiteral "42" = .vnum 42 ∧
    parseInsertLiteral "xyz" = .vstr "xyz" := by
  refine ⟨(literal_coercion_sites.1 "21").1, ?_, ?_, ?_⟩
  · have h := literal_coercion_sites.2.1 (qs ++ "Ann" ++ qs) (by decide)
    rw [h]
    decide
  · exact literal_coercion_sites.2.2.1 "42" 42 (by decide) (by decide)
  · exact literal_coercion_sites.2.2.2.2 "xyz" (by decide) (by decide) (by decide)
      (by decide) (by decide) (by decide) (by decide)

/-- Claim C6 amended: when the patch of an update includes the primary-key
column and, after the old index entries of the targeted rows have been
removed, the primary-key index still locates a record under the new key value
— that is, the new key collides with a row not targeted by the call — the
update throws the duplicate-primary-key error at the first row of the write
loop, before any row has been written: the returned table carries the original
data unchanged (only the index entries of the targets are stripped, as in the
source, whose thrown error leaves that mutation behind). Collisions created
among the targeted rows themselves are not rejected (see the
counterexample). -/
theorem update_pk_nontarget_collision
    (t : Table) (conds : List (String × CondV)) (patch : Record) (pk : String)
    (i0 : Nat) (rest : List Nat) (v0 : Record)
    (hpk : t.primaryKey = some pk)
    (hpatch : hasKeyA patch pk = true)
    (hind : resolveTargets t (find t conds) = i0 :: rest)
    (hval : validateRecord
        { t with indexes := stripPhase t.indexes t.data (i0 :: rest) }
        (jsMerge (t.data.getD i0 []) patch) = .ok v0)
    (hdup : (findOne { t with indexes := stripPhase t.indexes t.data (i0 :: rest) }
        [(pk, match lookupA v0 pk with
              | some v => CondV.lit v
              | none => CondV.undef)]).isSome = true) :
    update t conds patch =
      ({ t with indexes := stripPhase t.indexes t.data (i0 :: rest) },
       .err "Duplicate primary key value") := by
  simp only [update]
  rw [hind]
  simp only [updateLoop]
  rw [hval]
  simp only [hpk]
  rw [hpk] at hdup
  rw [hpatch, hdup]
  simp [hpk]

/-- Witness for the amended claim C6 at a concrete input: updating the single
row id 1 of the two-row table to the key 2 of the non-targeted row id 2 throws
the duplicate-primary-key error with the data unchanged. -/
theorem update_pk_nontarget_collision_witness :
    update tabId12 [("id", .lit (.vnum 1))] [("id", .vnum 2)] =
      ({ tabId12 with
          indexes := stripPhase tabId12.indexes tabId12.data [0] },
       .err "Duplicate primary key value") :=
  update_pk_nontarget_collision tabId12 [("id", .lit (.vnum 1))] [("id", .vnum 2)]
    "id" 0 [] [("id", .vnum 2)] (by decide) (by decide) (by decide) (by decide) (by decide)

/-- Claim C3 amended: an insert in which an auto-increment column has no
value in the validated record stores, for that column, 1 plus the maximum of
0 and the existing column values — the spec formula with the maximum clamped
below at zero (the source folds Math.max from 0, so missing fields count 0 and
a negative maximum is ignored); a freed positive maximum id is still reissued
as max-of-remaining-rows plus one. Stated for schemas without duplicate column
names and data whose values for the column are numeric or absent, the domain
on which the JS scan is faithfully modelled. -/
theorem autoIncrement_clamped (t : Table) (r : Record) (col : String) (d : ColumnDef)
    (v0 : Record)
    (hnd : (t.schema.map Prod.fst).Nodup)
    (hmem : (col, d) ∈ t.schema) (hai : d.autoIncrement = true)
    (hval : validateRecord t r = .ok v0)
    (hno : hasKeyA v0 col = false)
    (hnum : ∀ row ∈ t.data, numericOrAbsent (lookupA row col) = true) :
    ∃ w, (insert t r).2 = .ok w ∧ (insert t r).1.data = t.data ++ [w] ∧
      lookupA w col = some (.vnum (1 + max 0 (specAutoMax t.data col))) := by
  refine ⟨fillLoop t.data t.schema v0, ?_, ?_, ?_⟩
  · simp [insert, hval]
  · simp [insert, hval]
  · rw [fillLoop_hits t.data t.schema col d hai v0 hnd hmem hno]
    rw [autoMaxCode_spec col t.data hnum]
    rw [Int.add_comm (max 0 (specAutoMax t.data col)) 1]

/-- Witness for the amended claim C3 at the spec section 8 reissue scenario:
after two auto-assigned inserts (ids 1 and 2) and a delete of id 1, inserting
without an id stores 1 plus the clamped maximum of the remaining rows, that
is id 3. -/
theorem autoIncrement_clamped_witness :
    (1 + max 0 (specAutoMax tabAuto12Del.data "id") = 3) ∧
    ∃ w, (insert tabAuto12Del []).2 = .ok w ∧
      (insert tabAuto12Del []).1.data = tabAuto12Del.data ++ [w] ∧
      lookupA w "id" = some (.vnum (1 + max 0 (specAutoMax tabAuto12Del.data "id"))) :=
  ⟨by decide,
   autoIncrement_clamped tabAuto12Del [] "id" autoPKCol [] (by decide) (by decide)
     (by decide) (by decide) (by decide) (by decide)⟩

end AlphaDB
